import Mathlib

/-!
Verification development for the C# analyzer provider
(`c-sharp-analyzer-provider-cli`).  The definitions below are a shallow
embedding of the Rust sources:

* `src/c_sharp_graph/query.rs` — pattern compilation (`Search`),
  FQN reconstruction (`get_fqdn`), the evaluator (`Querier::query`,
  `Querier::traverse_node_search`, `Querier::get_starting_nodes`);
* `src/c_sharp_graph/namespace_query.rs` and `method_query.rs` — the two
  matcher flavours;
* `src/provider/project.rs` — `AnalysisMode` conversions;
* `src/provider/dependency_resolution.rs` — the `paket.dependencies` parser;
* `src/provider/csharp.rs` — the `evaluate` RPC error path.

Strings are modelled with structurally recursive helpers over `List Char`
(rather than the well-founded-recursion helpers of core `String`) so that
every definition evaluates inside `decide` / `rfl`.  Rust string order and
UTF-8 byte order agree with `List Char` lexicographic order, and Rust
`str::split` / `str::replace` / `split_whitespace` are modelled by
`rustSplit` / `rustReplace` / `wsTokens` below.
-/

namespace CSharpAnalyzer

/-- Scan used to model Rust `str::split(pat)`: splits `cs` at leftmost
non-overlapping occurrences of the (non-empty) separator `sep`.  The `fuel`
argument makes the recursion structural; callers pass the input length. -/
def splitLoop (sep : List Char) : Nat → List Char → List Char → List (List Char)
  | _, [], acc => [acc.reverse]
  | 0, cs, acc => [acc.reverse ++ cs]
  | fuel + 1, c :: rest, acc =>
    if sep.isPrefixOf (c :: rest) then
      acc.reverse :: splitLoop sep fuel ((c :: rest).drop sep.length) []
    else
      splitLoop sep fuel rest (c :: acc)

/-- List-level split on a separator word, as Rust `str::split` does. -/
def splitListOn (sep cs : List Char) : List (List Char) :=
  splitLoop sep (cs.length + 1) cs []

/-- Model of Rust `str::split(sep)` collected into a vector of strings. -/
def rustSplit (s sep : String) : List String :=
  (splitListOn sep.data s.data).map (fun cs => ⟨cs⟩)

/-- Model of Rust `str::replace(pat, rep)`: split on `pat`, join with `rep`. -/
def rustReplace (s pat rep : String) : String :=
  ⟨List.intercalate rep.data (splitListOn pat.data s.data)⟩

/-- Model of Rust `str::contains(pat)` for a non-empty pattern word. -/
def containsSub (s pat : String) : Bool :=
  go s.data
where
  /-- Check every suffix for the pattern as a prefix. -/
  go : List Char → Bool
    | [] => pat.data.isPrefixOf []
    | c :: rest => pat.data.isPrefixOf (c :: rest) || go rest

/-- Model of Rust `str::split_whitespace`: maximal non-empty runs of
non-whitespace characters. -/
def wsLoop : List Char → List Char → List String
  | [], acc => if acc.isEmpty then [] else [⟨acc.reverse⟩]
  | c :: rest, acc =>
    if c.isWhitespace then
      if acc.isEmpty then wsLoop rest [] else ⟨acc.reverse⟩ :: wsLoop rest []
    else
      wsLoop rest (c :: acc)

/-- Whitespace tokenisation of a string (Rust `split_whitespace().collect()`). -/
def wsTokens (s : String) : List String :=
  wsLoop s.data []

/-- Lexicographic comparison of character lists; agrees with Rust `String`
ordering (UTF-8 byte order coincides with code-point order). -/
def charsLt : List Char → List Char → Bool
  | [], [] => false
  | [], _ :: _ => true
  | _ :: _, [] => false
  | a :: as, b :: bs => if a < b then true else if b < a then false else charsLt as bs

/-- Model of Rust `String` `<`. -/
def strLt (a b : String) : Bool :=
  charsLt a.data b.data

/-! ### Regular expressions

The query compiler hands its patterns to the external `regex` crate.  We
model the engine for the syntax fragment the compiler can generate
(literals, `.`, groups, postfix `*`, alternation, simple character
classes) with a Brzozowski-derivative matcher.  `RE.isMatch` has the
crate's `Regex::is_match` semantics: some substring of the input matches. -/

/-- Abstract syntax of the modelled regex fragment. -/
inductive RE where
  | emp : RE
  | eps : RE
  | chr : Char → RE
  | dot : RE
  | alt : RE → RE → RE
  | cat : RE → RE → RE
  | star : RE → RE
deriving DecidableEq, Repr

/-- Whether the regex accepts the empty word. -/
def RE.nullable : RE → Bool
  | .emp => false
  | .eps => true
  | .chr _ => false
  | .dot => false
  | .alt a b => a.nullable || b.nullable
  | .cat a b => a.nullable && b.nullable
  | .star _ => true

/-- Brzozowski derivative of a regex by one character. -/
def RE.deriv : RE → Char → RE
  | .emp, _ => .emp
  | .eps, _ => .emp
  | .chr c, a => if a = c then .eps else .emp
  | .dot, _ => .eps
  | .alt r s, a => .alt (r.deriv a) (s.deriv a)
  | .cat r s, a =>
    if r.nullable then .alt (.cat (r.deriv a) s) (s.deriv a) else .cat (r.deriv a) s
  | .star r, a => .cat (r.deriv a) (.star r)

/-- Full (anchored) match of a regex against a character list. -/
def RE.matchList (r : RE) (cs : List Char) : Bool :=
  (cs.foldl RE.deriv r).nullable

/-- Unanchored match, the semantics of the regex crate's `is_match`: some
substring of `s` matches `r`, i.e. `.*r.*` matches all of `s`. -/
def RE.isMatch (r : RE) (s : String) : Bool :=
  RE.matchList (.cat (.star .dot) (.cat r (.star .dot))) s.data

/-- Parse the body of a character class, after a leading `[` (and after the
special leading `]`, if any, has been recorded).  Unclosed classes are the
error the compiler can run into (`Regex::new` fails on them). -/
def classLoop : List Char → List Char → Except String (RE × List Char)
  | [], _ => .error "regex parse error: unclosed character class"
  | ']' :: rest, acc => .ok (acc.foldr (fun c r => RE.alt (.chr c) r) .emp, rest)
  | c :: rest, acc => classLoop rest (acc ++ [c])

/-- Parse a character class; Rust treats a `]` in first position as a member. -/
def parseClass : List Char → Except String (RE × List Char)
  | ']' :: rest => classLoop rest [']']
  | '^' :: _ => .error "regex parse error: negated class not modelled"
  | cs => classLoop cs []

mutual

/-- Parse an alternation (`a|b`), the top production of the regex grammar. -/
def parseAlt : Nat → List Char → Except String (RE × List Char)
  | 0, _ => .error "regex parse error: out of fuel"
  | fuel + 1, cs => do
    let (r, rest) ← parseSeq fuel cs none
    match rest with
    | '|' :: rest2 => do
      let (r2, rest3) ← parseAlt fuel rest2
      .ok (.alt r r2, rest3)
    | _ => .ok (r, rest)

/-- Parse a concatenation of atoms, each optionally starred.  The
accumulator holds the sequence parsed so far. -/
def parseSeq : Nat → List Char → Option RE → Except String (RE × List Char)
  | 0, _, _ => .error "regex parse error: out of fuel"
  | fuel + 1, cs, acc =>
    match cs with
    | [] => .ok (acc.getD .eps, [])
    | ')' :: _ => .ok (acc.getD .eps, cs)
    | '|' :: _ => .ok (acc.getD .eps, cs)
    | c :: rest => do
      let (atom, rest2) ←
        match c with
        | '(' => do
          let (r, rest2) ← parseAlt fuel rest
          match rest2 with
          | ')' :: rest3 => Except.ok (r, rest3)
          | _ => Except.error "regex parse error: unclosed group"
        | '[' => parseClass rest
        | '.' => Except.ok (RE.dot, rest)
        | '*' => Except.error "regex parse error: repetition missing expression"
        | '+' => Except.error "regex parse error: operator not modelled"
        | '?' => Except.error "regex parse error: operator not modelled"
        | '{' => Except.error "regex parse error: operator not modelled"
        | '\\' => Except.error "regex parse error: escapes not modelled"
        | other => Except.ok (RE.chr other, rest)
      let (atom2, rest3) :=
        match rest2 with
        | '*' :: rest3 => (RE.star atom, rest3)
        | _ => (atom, rest2)
      parseSeq fuel rest3 (some (match acc with
        | none => atom2
        | some a => RE.cat a atom2))

end

/-- Compile a regex string, the model of `Regex::new`. -/
def parseRegex (s : String) : Except String RE := do
  let (r, rest) ← parseAlt (2 * s.data.length + 2) s.data
  match rest with
  | [] => .ok r
  | _ => .error "regex parse error: unopened group"

/-! ### Pattern compilation (`Search`, query.rs lines 434-523) -/

/-- One dotted component of a compiled query
(struct `SearchPart` in query.rs). -/
structure SearchPart where
  part : String
  regex : Option RE
deriving DecidableEq, Repr

/-- A compiled query pattern (struct `Search` in query.rs). -/
structure Search where
  parts : List SearchPart
deriving DecidableEq, Repr

/-- Compile one dotted part, embedding the loop body of
`Search::create_search`: a part containing `*` is compiled to a regex by
replacing each `*` with `(.*)`, the literal `*` reuses the precompiled
`.*` regex, and any other part stays a literal. -/
def compilePart (star_regex : RE) (p : String) : Except String SearchPart :=
  if p.data.contains '*' then
    if p = "*" then
      .ok { part := p, regex := some star_regex }
    else
      match parseRegex (rustReplace p "*" "(.*)") with
      | .error e => .error e
      | .ok r => .ok { part := p, regex := some r }
  else
    .ok { part := p, regex := none }

/-- Compile a list of parts in order, stopping at the first error, as the
`for` loop with `?` in `Search::create_search` does. -/
def compileParts (star_regex : RE) : List String → Except String (List SearchPart)
  | [] => .ok []
  | p :: rest =>
    match compilePart star_regex p with
    | .error e => .error e
    | .ok sp =>
      match compileParts star_regex rest with
      | .error e => .error e
      | .ok sps => .ok (sp :: sps)

/-- Model of `Search::create_search` (query.rs lines 446-471): split the
query on `.` and compile each part. -/
def Search.create_search (query : String) : Except String Search :=
  match parseRegex ".*" with
  | .error e => .error e
  | .ok star_regex =>
    match compileParts star_regex (rustSplit query ".") with
    | .error e => .error e
    | .ok ps => .ok ⟨ps⟩

/-- Model of `SearchPart::matches` (query.rs lines 516-523): regex parts
use the engine's `is_match`, literal parts use string equality. -/
def SearchPart.matches (sp : SearchPart) (match_string : String) : Bool :=
  match sp.regex with
  | none => sp.part = match_string
  | some r => r.isMatch match_string

/-- Model of `Search::partial_namespace` (query.rs lines 475-487): walk the
dotted components of the symbol against the pattern parts at the same
index, stopping at whichever list runs out first. -/
def Search.partial_namespace (se : Search) (symbol : String) : Bool :=
  (se.parts.zip (rustSplit symbol ".")).all fun pc => pc.1.matches pc.2

/-- Model of `Search::match_namespace` (query.rs lines 489-501); the source
body is identical to `partial_namespace`. -/
def Search.match_namespace (se : Search) (symbol : String) : Bool :=
  (se.parts.zip (rustSplit symbol ".")).all fun pc => pc.1.matches pc.2

/-- Model of `Search::match_symbol` (query.rs lines 503-507): the last part
of the pattern decides.  The source unwraps and would panic on an empty
parts list, which `create_search` never produces (`split` is non-empty);
the model returns `false` there. -/
def Search.match_symbol (se : Search) (symbol : String) : Bool :=
  match se.parts.getLast? with
  | none => false
  | some lp => lp.matches symbol


/-! ### The symbol graph

Model of the `stack_graphs` data the evaluator consumes.  Node and file
handles are indices into lists.  Symbols are interned in the stack-graphs
arena, so two symbol handles are equal exactly when their strings are
equal; the model therefore stores symbols as strings and compares them
with string equality where the source compares handles. -/

/-- Span of a node, with columns as UTF-8 offsets. -/
structure Span where
  start_line : Nat
  start_char : Nat
  end_line : Nat
  end_char : Nat
deriving DecidableEq, Repr

/-- Optional source information of a node (span plus syntax-kind string). -/
structure SourceInfo where
  span : Span
  syntax_type : Option String
deriving DecidableEq, Repr

/-- A graph node: optional interned symbol, owning file and source info. -/
structure GNode where
  symbol : Option String
  file : Option Nat
  info : Option SourceInfo
deriving DecidableEq, Repr

/-- A directed edge with its integer precedence; precedence 10 marks the
FQN-parent edge. -/
structure GEdge where
  source : Nat
  sink : Nat
  precedence : Int
deriving DecidableEq, Repr

/-- The in-memory stack graph: nodes and files are arenas indexed by
handle, edges an adjacency list. -/
structure StackGraph where
  nodes : List GNode
  edges : List GEdge
  fileNames : List String
deriving DecidableEq, Repr

/-- Outgoing edges of a node, in insertion order
(`StackGraph::outgoing_edges`). -/
def StackGraph.outgoing_edges (g : StackGraph) (n : Nat) : List GEdge :=
  g.edges.filter fun e => e.source == n

/-- Node handles belonging to a file (`StackGraph::nodes_for_file`). -/
def StackGraph.nodesOfFile (g : StackGraph) (f : Nat) : List Nat :=
  (List.range g.nodes.length).filter fun i =>
    match g.nodes.get? i with
    | some n => n.file == some f
    | none => false

/-- Syntax kinds (enum `SyntaxType` in query.rs). -/
inductive SyntaxType where
  | Import
  | CompUnit
  | NamespaceDeclaration
  | ClassDef
  | MethodName
  | LocalVar
  | Argument
  | Name
deriving DecidableEq, Repr

/-- Model of `SyntaxType::get` (query.rs lines 50-65): unknown strings
default to `Name`. -/
def SyntaxType.get (s : String) : SyntaxType :=
  if s = "import" then .Import
  else if s = "comp_unit" then .CompUnit
  else if s = "namespace_declaration" then .NamespaceDeclaration
  else if s = "class_def" then .ClassDef
  else if s = "method_name" then .MethodName
  else if s = "local_var" then .LocalVar
  else if s = "argument" then .Argument
  else if s = "name" then .Name
  else .Name

/-- Fully-qualified-name triple (struct `Fqdn` in query.rs).  The source
field names `namespace` and `class` are Lean keywords; they are rendered
here as `ns` and `cls`. -/
structure Fqdn where
  ns : Option String
  cls : Option String
  method : Option String
deriving DecidableEq, Repr

/-- Model of `get_fqdn` (query.rs lines 74-140) with explicit fuel; the
source recursion is along the (assumed acyclic) precedence-10 parent
chain, so a fuel of one per graph node suffices.  Nodes missing source
info, a syntax type or a symbol make the source panic; the model returns
`none` there, a case no claim exercises. -/
def get_fqdnF (g : StackGraph) : Nat → Nat → Option Fqdn
  | 0, _ => none
  | fuel + 1, node =>
    match g.nodes.get? node with
    | none => none
    | some n =>
      match n.info with
      | none => none
      | some si =>
        match si.syntax_type with
        | none => none
        | some st =>
          match n.symbol with
          | none => none
          | some symbol =>
            match (g.outgoing_edges node).find? (fun e => e.precedence == 10) with
            | none =>
              match SyntaxType.get st with
              | .NamespaceDeclaration => some ⟨some symbol, none, none⟩
              | .MethodName => some ⟨none, none, some symbol⟩
              | .ClassDef => some ⟨none, some symbol, none⟩
              | _ => none
            | some e =>
              match get_fqdnF g fuel e.sink with
              | none => some ⟨none, none, none⟩
              | some f =>
                match SyntaxType.get st with
                | .NamespaceDeclaration =>
                  some { f with ns := some (match f.ns with
                    | none => symbol
                    | some n0 => n0 ++ "." ++ symbol) }
                | .MethodName =>
                  some { f with method := some (match f.method with
                    | none => symbol
                    | some m0 => m0 ++ "." ++ symbol) }
                | .ClassDef =>
                  some { f with cls := some (match f.cls with
                    | none => symbol
                    | some c0 => c0 ++ "." ++ symbol) }
                | _ => none

/-- Entry point of the FQN reconstruction: run with enough fuel for any
simple precedence-10 chain in the graph. -/
def get_fqdn (g : StackGraph) (node : Nat) : Option Fqdn :=
  get_fqdnF g g.nodes.length node

/-! ### Matchers (namespace_query.rs, method_query.rs) -/

/-- Model of `NamespaceSymbols`: the three symbol-keyed maps, kept as the
lists of inserted pairs (hash-map lookup succeeds exactly when the key
occurs in the insertion list). -/
structure NamespaceSymbols where
  classes : List (String × Nat)
  class_fields : List (String × Nat)
  class_methods : List (String × Nat)
deriving DecidableEq, Repr

/-- Model of `NamespaceSymbols::symbol_in_namespace` (namespace_query.rs
lines 123-129): a hit in any of the three maps. -/
def NamespaceSymbols.symbol_in_namespace (m : NamespaceSymbols) (symbol : String) : Bool :=
  m.classes.any (fun p => p.1 == symbol)
    || m.class_methods.any (fun p => p.1 == symbol)
    || m.class_fields.any (fun p => p.1 == symbol)

/-- Contribution of one traversed edge to the `classes` map of
`NamespaceSymbols::traverse_node` (namespace_query.rs lines 82-110). -/
def nsClassContrib (g : StackGraph) (se : Search) (e : GEdge) : Option (String × Nat) :=
  match (g.nodes.get? e.sink).bind GNode.symbol with
  | none => none
  | some sym =>
    if se.match_symbol sym then
      match (g.nodes.get? e.sink).bind GNode.info with
      | none => none
      | some si =>
        match si.syntax_type with
        | none => none
        | some st => if SyntaxType.get st = .ClassDef then some (sym, e.sink) else none
    else none

/-- Contribution of one traversed edge to the `class_methods` map of
`NamespaceSymbols::traverse_node`. -/
def nsMethodContrib (g : StackGraph) (se : Search) (e : GEdge) : Option (String × Nat) :=
  match (g.nodes.get? e.sink).bind GNode.symbol with
  | none => none
  | some sym =>
    if se.match_symbol sym then
      match (g.nodes.get? e.sink).bind GNode.info with
      | none => none
      | some si =>
        match si.syntax_type with
        | none => none
        | some st => if SyntaxType.get st = .MethodName then some (sym, e.sink) else none
    else none

/-- Model of `NamespaceSymbols::traverse_node` (namespace_query.rs lines
73-121): skip precedence-10 edges, record class and method sinks whose
symbol matches the last pattern part, then recurse into every kept sink.
Returns the `(classes, class_methods)` insertion lists. -/
def NamespaceSymbols.traverse_nodeF (g : StackGraph) (se : Search) :
    Nat → Nat → List (String × Nat) × List (String × Nat)
  | 0, _ => ([], [])
  | fuel + 1, node =>
    let kept := (g.outgoing_edges node).filter fun e => !(e.precedence == 10)
    let rest := kept.map fun e => NamespaceSymbols.traverse_nodeF g se fuel e.sink
    (kept.filterMap (nsClassContrib g se) ++ (rest.map Prod.fst).flatten,
     kept.filterMap (nsMethodContrib g se) ++ (rest.map Prod.snd).flatten)

/-- Model of `NamespaceSymbols::new` (namespace_query.rs lines 36-62):
traverse every definition root. -/
def NamespaceSymbols.build (g : StackGraph) (roots : List Nat) (se : Search) :
    NamespaceSymbols :=
  roots.foldl
    (fun acc root =>
      let pr := NamespaceSymbols.traverse_nodeF g se g.nodes.length root
      { classes := acc.classes ++ pr.1
        class_fields := acc.class_fields
        class_methods := acc.class_methods ++ pr.2 })
    ⟨[], [], []⟩

/-- Model of `MethodSymbols`: the FQN-keyed map, kept as the insertion
list of `(fqdn, node)` pairs. -/
structure MethodSymbols where
  methods : List (Fqdn × Nat)
deriving DecidableEq, Repr

/-- Model of `MethodSymbols::symbol_in_namespace` (method_query.rs lines
108-127): the symbol must split into exactly `class.method`, and some
stored FQN must match both, with missing FQN fields read as `""`. -/
def MethodSymbols.symbol_in_namespace (m : MethodSymbols) (symbol : String) : Bool :=
  let parts := rustSplit symbol "."
  if parts.length ≠ 2 then false
  else
    let method_part := (parts.getLast?).getD ""
    let class_part := (parts.head?).getD ""
    m.methods.any fun pr =>
      ((pr.1.method.getD "") == method_part) && ((pr.1.cls.getD "") == class_part)

/-- Contribution of one traversed edge to the `methods` map of
`MethodSymbols::traverse_node` (method_query.rs lines 62-100); the bound
value is the current node, not the sink.  The source `expect`s the FQN of
a method sink; a missing FQN would panic and is modelled as no entry. -/
def methodContrib (g : StackGraph) (se : Search) (node : Nat) (e : GEdge) :
    Option (Fqdn × Nat) :=
  match (g.nodes.get? e.sink).bind GNode.symbol with
  | none => none
  | some sym =>
    if se.match_symbol sym then
      match (g.nodes.get? e.sink).bind GNode.info with
      | none => none
      | some si =>
        match si.syntax_type with
        | none => none
        | some st =>
          if SyntaxType.get st = .MethodName then
            match get_fqdn g e.sink with
            | some f => some (f, node)
            | none => none
          else none
    else none

/-- Model of `MethodSymbols::traverse_node`: skip precedence-10 edges,
record the FQN of matching method sinks against the current node, then
recurse into every kept sink. -/
def MethodSymbols.traverse_nodeF (g : StackGraph) (se : Search) :
    Nat → Nat → List (Fqdn × Nat)
  | 0, _ => []
  | fuel + 1, node =>
    let kept := (g.outgoing_edges node).filter fun e => !(e.precedence == 10)
    kept.filterMap (methodContrib g se node)
      ++ kept.flatMap fun e => MethodSymbols.traverse_nodeF g se fuel e.sink

/-! ### The evaluator (query.rs lines 166-417) -/

/-- Model of `loader::SourceType`.  The source carries the handle of an
interned marker symbol; interning makes handle equality agree with string
equality, so the model carries the marker string itself. -/
inductive SourceType where
  | Source : String → SourceType
  | Dependency : String → SourceType
deriving DecidableEq, Repr

/-- Reserved marker string for source files (`SourceType::SOURCE_STRING`). -/
def SOURCE_STRING : String := "konveyor.io/source_type=source"

/-- Reserved marker string for dependencies
(`SourceType::DEPENDENCY_STRING`). -/
def DEPENDENCY_STRING : String := "konveyor.io/source_type=dependency"

/-- Result record emitted per incident (struct `Position` of results.rs). -/
structure RPosition where
  line : Nat
  character : Nat
deriving DecidableEq, Repr

/-- Code span of an incident (struct `Location` of results.rs). -/
structure RLocation where
  start_position : RPosition
  end_position : RPosition
deriving DecidableEq, Repr

/-- One incident (struct `ResultNode` of results.rs); the source field
`variables` (a JSON map, modelled as an association list of strings) is
rendered `vars`, since `variables` is reserved in Lean. -/
structure ResultNode where
  file_uri : String
  line_number : Nat
  vars : List (String × String)
  code_location : RLocation
deriving DecidableEq, Repr

/-- Model of the starting-node record (struct `StartingNodes`).  The
source keeps `referenced_files` in a `HashSet` and
`file_to_compunit_handle` in a `HashMap`; the model keeps the insertion
sequences (first-insertion order for the set, all insertions for the map,
where lookup returns the most recent). -/
structure StartingNodes where
  definition_root_nodes : List Nat
  referenced_files : List Nat
  file_to_compunit_handle : List (Nat × Nat)
deriving DecidableEq, Repr

/-- Set insertion keeping first-insertion order (`HashSet::insert`). -/
def insertSet (l : List Nat) (x : Nat) : List Nat :=
  if x ∈ l then l else l ++ [x]

/-- Map lookup returning the most recent insertion (`HashMap::get` after a
sequence of `insert`s). -/
def lookupLast (l : List (Nat × Nat)) (k : Nat) : Option Nat :=
  (l.reverse.find? (fun p => p.1 == k)).map Prod.snd

/-- Model of `Querier::get_starting_nodes` (query.rs lines 184-246):
iterate every node; skip nodes without file, symbol or syntax kind; record
compilation units, referenced files of matching imports, and definition
roots of matching namespace declarations. -/
def get_starting_nodes (g : StackGraph) (search : Search) : StartingNodes :=
  (List.range g.nodes.length).foldl
    (fun acc node_handle =>
      match g.nodes.get? node_handle with
      | none => acc
      | some node =>
        match node.file with
        | none => acc
        | some fh =>
          match node.symbol with
          | none => acc
          | some symbol =>
            match node.info with
            | none => acc
            | some si =>
              match si.syntax_type with
              | none => acc
              | some st =>
                match SyntaxType.get st with
                | .CompUnit =>
                  { acc with file_to_compunit_handle :=
                      acc.file_to_compunit_handle ++ [(fh, node_handle)] }
                | .Import =>
                  if search.partial_namespace symbol then
                    { acc with referenced_files := insertSet acc.referenced_files fh }
                  else acc
                | .NamespaceDeclaration =>
                  if search.match_namespace symbol then
                    { acc with
                      definition_root_nodes := acc.definition_root_nodes ++ [node_handle]
                      referenced_files := insertSet acc.referenced_files fh }
                  else acc
                | _ => acc)
    ⟨[], [], []⟩

/-- Incident produced by one edge in `Querier::traverse_node_search`
(query.rs lines 256-337): the sink must carry a symbol the matcher
accepts and source info for the span; otherwise no incident. -/
def visitEdge (g : StackGraph) (m : String → Bool) (uri : String) (e : GEdge) :
    Option ResultNode :=
  match (g.nodes.get? e.sink).bind GNode.symbol with
  | none => none
  | some sym =>
    if m sym then
      match (g.nodes.get? e.sink).bind GNode.info with
      | none => none
      | some si =>
        some { file_uri := uri
               line_number := si.span.start_line
               vars := [("file", uri)]
               code_location :=
                 { start_position := ⟨si.span.start_line, si.span.start_char⟩
                   end_position := ⟨si.span.end_line, si.span.end_char⟩ } }
    else none

/-- Model of `Querier::traverse_node_search` (query.rs lines 248-342):
skip precedence-10 edges, emit an incident per matching sink of the
current node, then recurse into every kept sink in order.  Fuel replaces
the unbounded source recursion. -/
def traverse_node_searchF (g : StackGraph) (m : String → Bool) (uri : String) :
    Nat → Nat → List ResultNode
  | 0, _ => []
  | fuel + 1, node =>
    let kept := (g.outgoing_edges node).filter fun e => !(e.precedence == 10)
    kept.filterMap (visitEdge g m uri)
      ++ kept.flatMap fun e => traverse_node_searchF g m uri fuel e.sink

/-- Source-only marker test of `Querier::query` (query.rs lines 373-397):
the file must contain a node whose symbol is the reserved source-marker
symbol and which has an outgoing edge into the file's compilation-unit
node. -/
def hasSourceMarkerEdge (g : StackGraph) (marker : String) (f cu : Nat) : Bool :=
  (g.nodesOfFile f).any fun nh =>
    match (g.nodes.get? nh).bind GNode.symbol with
    | some s => s == marker && (g.outgoing_edges nh).any fun e => e.sink == cu
    | none => false

/-- Model of `Url::from_file_path(..).as_str()`: absolute paths become
`file://` URLs, anything else is an error. -/
def mkFileUri (name : String) : Option String :=
  match name.data with
  | '/' :: _ => some ("file://" ++ name)
  | _ => none

/-- Phase 3 of `Querier::query` (query.rs lines 359-414), exactly as
written: on a referenced file without a compilation unit the source
executes `break`, ending the whole loop; likewise on a file path that is
not a valid URL.  In source-only mode files failing the marker test are
skipped with `continue`. -/
def phase3 (g : StackGraph) (st : SourceType) (m : String → Bool)
    (ftc : List (Nat × Nat)) : List Nat → List ResultNode
  | [] => []
  | f :: rest =>
    match lookupLast ftc f with
    | none => []
    | some cu =>
      let skip :=
        match st with
        | SourceType.Source marker => !(hasSourceMarkerEdge g marker f cu)
        | SourceType.Dependency _ => false
      if skip then phase3 g st m ftc rest
      else
        match g.fileNames.get? f with
        | none => []
        | some name =>
          match mkFileUri name with
          | none => []
          | some uri =>
            traverse_node_searchF g m uri g.nodes.length cu ++ phase3 g st m ftc rest

/-- Model of `Querier::query` (query.rs lines 345-417), parameterised by
the matcher construction the generic parameter `T: GetMatcher` supplies:
compile the pattern (propagating its error), compute starting nodes,
build the matcher from the definition roots, then run phase 3 over the
referenced files. -/
def queryModel (g : StackGraph) (st : SourceType)
    (buildM : StackGraph → List Nat → Search → String → Bool) (query : String) :
    Except String (List ResultNode) :=
  match Search.create_search query with
  | .error e => .error e
  | .ok search =>
    let sn := get_starting_nodes g search
    Except.ok (phase3 g st (buildM g sn.definition_root_nodes search)
      sn.file_to_compunit_handle sn.referenced_files)

/-- Matcher construction of `QueryType::All`: a `NamespaceSymbols` built
from the definition roots (namespace_query.rs). -/
def nsMatcherBuild (g : StackGraph) (roots : List Nat) (se : Search) : String → Bool :=
  fun s => (NamespaceSymbols.build g roots se).symbol_in_namespace s

/-- Modelled from the spec: phase 3 as section 4.6 describes it — "Look
up its compilation-unit node; if none, skip" — a referenced file without
a compilation unit is skipped and evaluation continues with the remaining
referenced files.  This differs from the source, which executes `break`. -/
def phase3_spec_skip (g : StackGraph) (st : SourceType) (m : String → Bool)
    (ftc : List (Nat × Nat)) : List Nat → List ResultNode
  | [] => []
  | f :: rest =>
    match lookupLast ftc f with
    | none => phase3_spec_skip g st m ftc rest
    | some cu =>
      let skip :=
        match st with
        | SourceType.Source marker => !(hasSourceMarkerEdge g marker f cu)
        | SourceType.Dependency _ => false
      if skip then phase3_spec_skip g st m ftc rest
      else
        match g.fileNames.get? f with
        | none => phase3_spec_skip g st m ftc rest
        | some name =>
          match mkFileUri name with
          | none => phase3_spec_skip g st m ftc rest
          | some uri =>
            traverse_node_searchF g m uri g.nodes.length cu ++ phase3_spec_skip g st m ftc rest

/-- Query pipeline over the spec-described skip semantics of phase 3. -/
def queryModelSpecSkip (g : StackGraph) (st : SourceType)
    (buildM : StackGraph → List Nat → Search → String → Bool) (query : String) :
    Except String (List ResultNode) :=
  match Search.create_search query with
  | .error e => .error e
  | .ok search =>
    let sn := get_starting_nodes g search
    Except.ok (phase3_spec_skip g st (buildM g sn.definition_root_nodes search)
      sn.file_to_compunit_handle sn.referenced_files)

/-! ### The Evaluate RPC error path (csharp.rs lines 133-207) -/

/-- Wire response of a query (message `ProviderEvaluateResponse`);
incident contexts are carried as their `ResultNode` content. -/
structure ProviderEvaluateResponse where
  matched : Bool
  incident_contexts : List ResultNode
deriving DecidableEq, Repr

/-- Wire response of `Evaluate` (message `EvaluateResponse`). -/
structure EvaluateResponse where
  error : String
  successful : Bool
  response : Option ProviderEvaluateResponse
deriving DecidableEq, Repr

/-- Model of `CSharpProvider::evaluate` (csharp.rs lines 186-204): run the
query; an error becomes `successful = false` with the message and no
response; a success becomes `successful = true` with the incident list
and `matched` set when it is non-empty. -/
def evaluateModel (g : StackGraph) (st : SourceType)
    (buildM : StackGraph → List Nat → Search → String → Bool) (pattern : String) :
    EvaluateResponse :=
  match queryModel g st buildM pattern with
  | .error e => { error := e, successful := false, response := none }
  | .ok res =>
    { error := ""
      successful := true
      response := some { matched := !res.isEmpty, incident_contexts := res } }

/-! ### Analysis mode (project.rs lines 32-64) -/

/-- The two analysis modes (enum `AnalysisMode`). -/
inductive AnalysisMode where
  | Full
  | SourceOnly
deriving DecidableEq, Repr

/-- Model of `impl From<&str> for AnalysisMode` (project.rs lines 38-46):
only the exact strings are recognised; everything else falls to `Full`. -/
def AnalysisMode.ofStr (value : String) : AnalysisMode :=
  if value = "full" then .Full
  else if value = "source-only" then .SourceOnly
  else .Full

/-! ### paket.dependencies parsing (dependency_resolution.rs lines 360-419) -/

/-- Sentinel the parser starts `smallest_framework` from. -/
def FRAMEWORK_SENTINEL : String := "zzzzzzzzzzzzzzz"

/-- Model of the line loop of `Project::read_packet_dependency_file`
(dependency_resolution.rs lines 371-419), over the file's lines with the
`(deps, smallest_framework)` state threaded through.  A line is skipped
unless it contains `restriction`, splits on `restriction:` into exactly
two parts, and its pre-split part has at least four whitespace tokens
(the `continue` for fewer tokens also skips the framework update);
otherwise tokens 1 and 2 become a dependency and the last whitespace
token of the post-split part lowers `smallest_framework` if smaller. -/
def read_packet_lines :
    List String → List (String × String) × String → List (String × String) × String
  | [], st => st
  | line :: rest, (deps, smallest) =>
    if containsSub line "restriction" = false then
      read_packet_lines rest (deps, smallest)
    else
      let parts := rustSplit line "restriction:"
      if parts.length ≠ 2 then read_packet_lines rest (deps, smallest)
      else
        let ws := wsTokens ((parts.head?).getD "")
        if ws.length < 4 then read_packet_lines rest (deps, smallest)
        else
          let name := ws.getD 1 ""
          let version := ws.getD 2 ""
          let smallest' :=
            match (wsTokens ((parts.get? 1).getD "")).getLast? with
            | none => smallest
            | some fw => if strLt fw smallest then fw else smallest
          read_packet_lines rest (deps ++ [(name, version)], smallest')

/-- Dependency names/versions and `smallest_framework` computed from the
lines of a `paket.dependencies` file. -/
def read_packet_model (lines : List String) : List (String × String) × String :=
  read_packet_lines lines ([], FRAMEWORK_SENTINEL)

/-- Test whether the parser processes a `paket.dependencies` line: it must
contain `restriction`, split on `restriction:` into exactly two parts, and
its pre-split part must have at least four whitespace tokens.  A processed
line yields its token list and its post-split part. -/
def restrictionEntry (line : String) : Option (List String × String) :=
  if containsSub line "restriction" then
    let parts := rustSplit line "restriction:"
    if parts.length = 2 then
      let ws := wsTokens ((parts.head?).getD "")
      if 4 ≤ ws.length then some (ws, (parts.get? 1).getD "") else none
    else none
  else none

/-- Lines of a `paket.dependencies` file that the parser actually
processes, with their pre-split token lists and post-split parts. -/
def relevantRestrictionLines (lines : List String) : List (List String × String) :=
  lines.filterMap restrictionEntry

/-- Dependency list the amended claim describes: token 1 is the name,
token 2 the version, one per processed line. -/
def amendedDeps (lines : List String) : List (String × String) :=
  (relevantRestrictionLines lines).map fun pr => (pr.1.getD 1 "", pr.1.getD 2 "")

/-- Framework tokens of the processed lines: the last whitespace token of
each post-split part, when there is one. -/
def frameworkTokens (lines : List String) : List String :=
  (relevantRestrictionLines lines).filterMap fun pr => (wsTokens pr.2).getLast?

/-- Lower an accumulator by a framework token when the token is smaller. -/
def fwMin (s fw : String) : String :=
  if strLt fw s then fw else s

/-- Value of `smallest_framework` the amended claim describes: the fold of
`fwMin` over the framework tokens, starting from the sentinel. -/
def amendedSmallest (lines : List String) : String :=
  (frameworkTokens lines).foldl fwMin FRAMEWORK_SENTINEL

/-- Modelled from the claim's words (claim C9): "smallest_framework equals
the lexicographically smallest last whitespace-separated token of the
post-split parts seen across those lines", with "those lines" the lines
containing the substring `restriction`.  `none` when no token was seen. -/
def claimedSmallest (lines : List String) : Option String :=
  ((lines.filter fun l => containsSub l "restriction").flatMap fun l =>
      ((rustSplit l "restriction:").drop 1).filterMap fun post => (wsTokens post).getLast?).foldl
    (fun acc t =>
      match acc with
      | none => some t
      | some s => if strLt t s then some t else some s)
    none

/-! ### Concrete graphs used by closed theorems and witnesses -/

/-- Source info with a zero span and the given syntax kind. -/
def mkInfo (st : String) : Option SourceInfo :=
  some { span := ⟨0, 0, 0, 0⟩, syntax_type := some st }

/-- The compiled pattern `*`: one part holding the precompiled `.*`. -/
def searchStar : Search :=
  ⟨[⟨"*", some (RE.star RE.dot)⟩]⟩

/-- Graph with a namespace nested as `A.B.C` containing a class `K`:
node 3 (`K`, class_def) has the precedence-10 chain 3 → 2 (`C`) → 1
(`B`) → 0 (`A`), all namespace declarations. -/
def gFqdn : StackGraph :=
  { nodes :=
      [ { symbol := some "A", file := some 0, info := mkInfo "namespace_declaration" }
      , { symbol := some "B", file := some 0, info := mkInfo "namespace_declaration" }
      , { symbol := some "C", file := some 0, info := mkInfo "namespace_declaration" }
      , { symbol := some "K", file := some 0, info := mkInfo "class_def" } ]
    edges := [⟨3, 2, 10⟩, ⟨2, 1, 10⟩, ⟨1, 0, 10⟩]
    fileNames := ["/proj/a.cs"] }

/-- One-node graph whose node has an FQN-foreign syntax kind (`import`). -/
def gOther : StackGraph :=
  { nodes := [{ symbol := some "s", file := some 0, info := mkInfo "import" }]
    edges := []
    fileNames := ["/proj/b.cs"] }

/-- Source-mode witness graph: file 0 has a compilation unit (node 0), a
matching import (node 1), a source-marker node with an edge into the
compilation unit (node 2) and a matchable sink (node 3). -/
def gSrc : StackGraph :=
  { nodes :=
      [ { symbol := some "c", file := some 0, info := mkInfo "comp_unit" }
      , { symbol := some "X", file := some 0, info := mkInfo "import" }
      , { symbol := some SOURCE_STRING, file := some 0, info := none }
      , { symbol := some "Z", file := some 0
        , info := some { span := ⟨7, 1, 7, 2⟩, syntax_type := some "name" } } ]
    edges := [⟨2, 0, 0⟩, ⟨0, 3, 0⟩]
    fileNames := ["/proj/a.cs"] }

/-- Matcher construction that accepts every symbol; used to instantiate
the matcher-generic evaluator in witnesses. -/
def constTrueMatcher : StackGraph → List Nat → Search → String → Bool :=
  fun _ _ _ _ => true

/-- The incident the evaluator emits from `gSrc`. -/
def rSrc : ResultNode :=
  { file_uri := "file:///proj/a.cs"
    line_number := 7
    vars := [("file", "file:///proj/a.cs")]
    code_location := { start_position := ⟨7, 1⟩, end_position := ⟨7, 2⟩ } }

/-- Two-file graph for the missing-compilation-unit claim: file 0 is
referenced through its import (node 0) but has no compilation-unit node;
file 1 has a compilation unit (node 1), a definition root (node 2,
namespace `N`) and a matching class sink (node 3, `Z`). -/
def gBreak : StackGraph :=
  { nodes :=
      [ { symbol := some "X", file := some 0, info := mkInfo "import" }
      , { symbol := some "c", file := some 1, info := mkInfo "comp_unit" }
      , { symbol := some "N", file := some 1, info := mkInfo "namespace_declaration" }
      , { symbol := some "Z", file := some 1
        , info := some { span := ⟨5, 2, 5, 3⟩, syntax_type := some "class_def" } } ]
    edges := [⟨2, 3, 0⟩, ⟨1, 3, 0⟩]
    fileNames := ["/proj/f1.cs", "/proj/f2.cs"] }

/-- The incident phase 3 emits from file 1 of `gBreak` when the file is
reached. -/
def rBreak : ResultNode :=
  { file_uri := "file:///proj/f2.cs"
    line_number := 5
    vars := [("file", "file:///proj/f2.cs")]
    code_location := { start_position := ⟨5, 2⟩, end_position := ⟨5, 3⟩ } }

/-! ### Theorems -/

/-- Claim C10: every analysis-mode string other than exactly `full` or
`source-only` converts to `Full`; the conversion is total, so an
unrecognised mode is never rejected as an error (witnessed by the
concrete inputs `"Full"` and `""`). -/
theorem analysis_mode_unrecognized_is_full :
    (∀ s : String, s ≠ "full" → s ≠ "source-only" → AnalysisMode.ofStr s = .Full) ∧
    AnalysisMode.ofStr "Full" = .Full ∧ AnalysisMode.ofStr "" = .Full := by
  refine ⟨fun s h1 h2 => ?_, rfl, rfl⟩
  simp [AnalysisMode.ofStr, h1, h2]

/-- Witness for claim C10 at the concrete input `"Full"`. -/
theorem analysis_mode_unrecognized_is_full_witness :
    AnalysisMode.ofStr "Full" = AnalysisMode.Full :=
  analysis_mode_unrecognized_is_full.1 "Full" (by decide) (by decide)

/-- Claim C8: a pattern with an invalid regex fragment (here `a*[`, whose
star part compiles to the regex string `a(.*)[` with an unclosed
character class) makes pattern compilation fail, and `Evaluate` returns
`successful = false` with the error message set and no response. -/
theorem evaluate_bad_pattern :
    Search.create_search "a*[" =
      Except.error "regex parse error: unclosed character class" ∧
    (evaluateModel gSrc (SourceType.Dependency DEPENDENCY_STRING) nsMatcherBuild
        "a*[").successful = false ∧
    (evaluateModel gSrc (SourceType.Dependency DEPENDENCY_STRING) nsMatcherBuild
        "a*[").response = none ∧
    (evaluateModel gSrc (SourceType.Dependency DEPENDENCY_STRING) nsMatcherBuild
        "a*[").error ≠ "" :=
  ⟨rfl, rfl, rfl, by decide⟩

/-- Claim C6 (code bug): on the graph `gBreak`, file 0 is referenced but
has no compilation-unit node, so the source's `break` ends phase 3 before
file 1 is reached and the query returns no incidents, although file 1
holds a matching incident; under the spec's skip-and-continue semantics
the very same inputs produce that incident. -/
theorem query_break_on_missing_compunit :
    queryModel gBreak (SourceType.Dependency DEPENDENCY_STRING) nsMatcherBuild "*" =
      Except.ok [] ∧
    queryModelSpecSkip gBreak (SourceType.Dependency DEPENDENCY_STRING) nsMatcherBuild "*" =
      Except.ok [rBreak] :=
  ⟨rfl, rfl⟩

/-- Counterexample to claim C9 as stated: on the single line
`"x restriction: aaa"` the smallest last post-split token seen across
lines containing `restriction` is `aaa`, but the code leaves
`smallest_framework` at its sentinel because the pre-split part has fewer
than four whitespace tokens (the `continue` also skips the framework
update). -/
theorem paket_smallest_framework_counterexample :
    claimedSmallest ["x restriction: aaa"] = some "aaa" ∧
    (read_packet_model ["x restriction: aaa"]).2 = FRAMEWORK_SENTINEL ∧
    FRAMEWORK_SENTINEL ≠ "aaa" :=
  ⟨rfl, rfl, by decide⟩

/-- A line without the `restriction` substring is not processed. -/
theorem restrictionEntry_no_contains {line : String}
    (hc : containsSub line "restriction" = false) : restrictionEntry line = none := by
  simp [restrictionEntry, hc]

/-- A line whose `restriction:` split is not exactly two parts is not
processed. -/
theorem restrictionEntry_bad_split {line : String}
    (hp : (rustSplit line "restriction:").length ≠ 2) : restrictionEntry line = none := by
  simp [restrictionEntry, hp]

/-- A line whose pre-split part has fewer than four whitespace tokens is
not processed. -/
theorem restrictionEntry_few_tokens {line : String}
    (hw : (wsTokens (((rustSplit line "restriction:").head?).getD "")).length < 4) :
    restrictionEntry line = none := by
  simp [restrictionEntry, Nat.not_le.mpr hw]

/-- A line passing all three checks is processed into its token list and
post-split part. -/
theorem restrictionEntry_processed {line : String}
    (hc : containsSub line "restriction" = true)
    (hp : (rustSplit line "restriction:").length = 2)
    (h4 : 4 ≤ (wsTokens (((rustSplit line "restriction:").head?).getD "")).length) :
    restrictionEntry line =
      some (wsTokens (((rustSplit line "restriction:").head?).getD ""),
        ((rustSplit line "restriction:").get? 1).getD "") := by
  simp [restrictionEntry, hc, hp, h4]

/-- Unprocessed lines contribute no dependency. -/
theorem amendedDeps_cons_none {line : String} {rest : List String}
    (h : restrictionEntry line = none) :
    amendedDeps (line :: rest) = amendedDeps rest := by
  simp [amendedDeps, relevantRestrictionLines, List.filterMap_cons, h]

/-- A processed line contributes tokens 1 and 2 as name and version. -/
theorem amendedDeps_cons_some {line : String} {rest : List String}
    {pr : List String × String} (h : restrictionEntry line = some pr) :
    amendedDeps (line :: rest) = (pr.1.getD 1 "", pr.1.getD 2 "") :: amendedDeps rest := by
  simp [amendedDeps, relevantRestrictionLines, List.filterMap_cons, h]

/-- Unprocessed lines contribute no framework token. -/
theorem frameworkTokens_cons_none {line : String} {rest : List String}
    (h : restrictionEntry line = none) :
    frameworkTokens (line :: rest) = frameworkTokens rest := by
  simp [frameworkTokens, relevantRestrictionLines, List.filterMap_cons, h]

/-- A processed line contributes the last whitespace token of its
post-split part, when there is one. -/
theorem frameworkTokens_cons_some {line : String} {rest : List String}
    {pr : List String × String} (h : restrictionEntry line = some pr) :
    frameworkTokens (line :: rest) =
      match (wsTokens pr.2).getLast? with
      | none => frameworkTokens rest
      | some fw => fw :: frameworkTokens rest := by
  cases hlast : (wsTokens pr.2).getLast? <;>
    simp [frameworkTokens, relevantRestrictionLines, List.filterMap_cons, h, hlast]

/-- State-generalised description of the paket line loop: it appends the
dependencies of the processed lines and folds their framework tokens into
the running minimum. -/
theorem read_packet_lines_eq (lines : List String) : ∀ deps s,
    read_packet_lines lines (deps, s) =
      (deps ++ amendedDeps lines, (frameworkTokens lines).foldl fwMin s) := by
  induction lines with
  | nil =>
    intro deps s
    simp [read_packet_lines, amendedDeps, relevantRestrictionLines, frameworkTokens]
  | cons line rest ih =>
    intro deps s
    cases hc : containsSub line "restriction" with
    | false =>
      have hstep : read_packet_lines (line :: rest) (deps, s) = read_packet_lines rest (deps, s) := by
        simp [read_packet_lines, hc]
      rw [hstep, ih, amendedDeps_cons_none (restrictionEntry_no_contains hc),
        frameworkTokens_cons_none (restrictionEntry_no_contains hc)]
    | true =>
      by_cases hp : (rustSplit line "restriction:").length = 2
      · by_cases hw :
            (wsTokens (((rustSplit line "restriction:").head?).getD "")).length < 4
        · simp only [read_packet_lines, hc]
          rw [if_neg (by simp), if_neg (by simp [hp]), if_pos hw, ih,
            amendedDeps_cons_none (restrictionEntry_few_tokens hw),
            frameworkTokens_cons_none (restrictionEntry_few_tokens hw)]
        · have h4 : 4 ≤ (wsTokens (((rustSplit line "restriction:").head?).getD "")).length :=
            Nat.not_lt.mp hw
          have hent := restrictionEntry_processed hc hp h4
          simp only [read_packet_lines, hc]
          rw [if_neg (by simp), if_neg (by simp [hp]), if_neg hw, ih,
            amendedDeps_cons_some hent, frameworkTokens_cons_some hent]
          cases hlast :
              (wsTokens (((rustSplit line "restriction:").get? 1).getD "")).getLast? with
          | none => simp
          | some fw => simp [fwMin]
      · simp only [read_packet_lines, hc]
        rw [if_neg (by simp), if_pos (by simp [hp]), ih,
          amendedDeps_cons_none (restrictionEntry_bad_split hp),
          frameworkTokens_cons_none (restrictionEntry_bad_split hp)]

/-- Claim C9 amended: only lines containing `restriction` that split on
`restriction:` into exactly two parts and whose pre-split part has at
least four whitespace tokens are processed — token 1 becoming the package
name, token 2 the version — and `smallest_framework` is the minimum of
the sentinel `zzzzzzzzzzzzzzz` and the last whitespace tokens of the
post-split parts of those processed lines. -/
theorem read_packet_dependency_amended (lines : List String) :
    read_packet_model lines = (amendedDeps lines, amendedSmallest lines) := by
  simpa [read_packet_model, amendedSmallest] using
    read_packet_lines_eq lines [] FRAMEWORK_SENTINEL

/-- Abort behaviour of `get_fqdn` at a node whose syntax kind is none of
the three FQN kinds: either no FQN is produced, or (when the parent chain
itself aborted) the empty FQN is produced. -/
def C4Abort (g : StackGraph) (node : Nat) : Prop :=
  get_fqdn g node = none ∨ get_fqdn g node = some ⟨none, none, none⟩

/-- Fuel-level abort lemma behind claim C4. -/
theorem get_fqdnF_abort (g : StackGraph) (fuel node : Nat) (n : GNode) (si : SourceInfo)
    (st sym : String)
    (h1 : g.nodes.get? node = some n) (h2 : n.info = some si)
    (h3 : si.syntax_type = some st) (h4 : n.symbol = some sym)
    (hns : SyntaxType.get st ≠ .NamespaceDeclaration)
    (hcd : SyntaxType.get st ≠ .ClassDef)
    (hmn : SyntaxType.get st ≠ .MethodName) :
    get_fqdnF g (fuel + 1) node = none ∨
      get_fqdnF g (fuel + 1) node = some ⟨none, none, none⟩ := by
  simp only [get_fqdnF, h1, h2, h3, h4]
  cases hfind : (g.outgoing_edges node).find? (fun e => e.precedence == 10) with
  | none => cases hst : SyntaxType.get st <;> simp_all
  | some e =>
    cases hrec : get_fqdnF g fuel e.sink with
    | none => simp [hrec]
    | some f => cases hst : SyntaxType.get st <;> simp_all

/-- Claim C4: FQN reconstruction joins namespace names bottom-up with `.`
and fills the class field, so the nested namespace `A.B.C` with class `K`
in `gFqdn` yields `(namespace = "A.B.C", class = "K", method = none)`;
and a node of any other syntax kind on an FQN chain aborts the
reconstruction, returning nothing or the empty FQN. -/
theorem fqn_reconstruction :
    get_fqdn gFqdn 3 = some ⟨some "A.B.C", some "K", none⟩ ∧
    ∀ (g : StackGraph) (node : Nat) (n : GNode) (si : SourceInfo) (st sym : String),
      g.nodes.get? node = some n → n.info = some si → si.syntax_type = some st →
      n.symbol = some sym →
      SyntaxType.get st ≠ .NamespaceDeclaration →
      SyntaxType.get st ≠ .ClassDef →
      SyntaxType.get st ≠ .MethodName →
      C4Abort g node := by
  refine ⟨rfl, ?_⟩
  intro g node n si st sym h1 h2 h3 h4 hns hcd hmn
  have hlt : node < g.nodes.length := by
    rcases List.get?_eq_some.mp h1 with ⟨h, _⟩
    exact h
  obtain ⟨k, hk⟩ : ∃ k, g.nodes.length = k + 1 := ⟨g.nodes.length - 1, by omega⟩
  unfold C4Abort get_fqdn
  rw [hk]
  exact get_fqdnF_abort g k node n si st sym h1 h2 h3 h4 hns hcd hmn

/-- Witness for claim C4: the lone `import`-kind node of `gOther` has its
reconstruction aborted. -/
theorem fqn_reconstruction_witness : C4Abort gOther 0 :=
  fqn_reconstruction.2 gOther 0
    { symbol := some "s", file := some 0, info := mkInfo "import" }
    { span := ⟨0, 0, 0, 0⟩, syntax_type := some "import" } "import" "s"
    rfl rfl rfl rfl (by decide) (by decide) (by decide)

/-- Behaviour of one compiled part, as claim C2 describes it: the part
string is kept; a part containing `*` carries the regex compiled from the
star-replaced string (`.*` for the literal `*`) and matches a component
exactly when the engine's `is_match` holds on it; a part without `*`
matches by string equality. -/
def SearchPartOK (p : String) (sp : SearchPart) : Prop :=
  sp.part = p ∧
  (p.data.contains '*' = true →
    ∃ r, sp.regex = some r ∧
      parseRegex (if p = "*" then ".*" else rustReplace p "*" "(.*)") = Except.ok r ∧
      ∀ c, sp.matches c = r.isMatch c) ∧
  (p.data.contains '*' = false →
    sp.regex = none ∧ ∀ c, sp.matches c = decide (p = c))

/-- Conclusion of claim C2: a successfully compiled pattern has one part
per dotted component of the query, in order, each per `SearchPartOK`. -/
def C2Conclusion (query : String) (s : Search) : Prop :=
  s.parts.length = (rustSplit query ".").length ∧
  ∀ i sp p, s.parts.get? i = some sp → (rustSplit query ".").get? i = some p →
    SearchPartOK p sp

/-- Correctness of `compilePart` with the precompiled `.*` regex. -/
theorem compilePart_ok (p : String) (sp : SearchPart)
    (h : compilePart (RE.star RE.dot) p = Except.ok sp) : SearchPartOK p sp := by
  unfold compilePart at h
  by_cases hstar : p.data.contains '*' = true
  · rw [if_pos hstar] at h
    by_cases hp : p = "*"
    · rw [if_pos hp] at h
      cases h
      refine ⟨rfl, fun _ => ⟨RE.star RE.dot, rfl, by rw [if_pos hp]; rfl, fun c => rfl⟩,
        fun hf => ?_⟩
      rw [hstar] at hf
      cases hf
    · rw [if_neg hp] at h
      cases hr : parseRegex (rustReplace p "*" "(.*)") with
      | error e => rw [hr] at h; cases h
      | ok r =>
        rw [hr] at h
        cases h
        refine ⟨rfl, fun _ => ⟨r, rfl, by rw [if_neg hp]; exact hr, fun c => rfl⟩,
          fun hf => ?_⟩
        rw [hstar] at hf
        cases hf
  · rw [if_neg hstar] at h
    cases h
    exact ⟨rfl, fun ht => absurd ht hstar, fun _ => ⟨rfl, fun c => rfl⟩⟩

/-- Correctness of `compileParts`: pointwise `compilePart` successes. -/
theorem compileParts_ok (l : List String) : ∀ ps,
    compileParts (RE.star RE.dot) l = Except.ok ps →
    ps.length = l.length ∧
    ∀ i sp p, ps.get? i = some sp → l.get? i = some p → SearchPartOK p sp := by
  induction l with
  | nil =>
    intro ps h
    cases h
    exact ⟨rfl, fun i sp p h1 _ => by cases h1⟩
  | cons p rest ih =>
    intro ps h
    unfold compileParts at h
    cases hsp : compilePart (RE.star RE.dot) p with
    | error e => rw [hsp] at h; cases h
    | ok sp =>
      rw [hsp] at h
      cases hps : compileParts (RE.star RE.dot) rest with
      | error e => rw [hps] at h; cases h
      | ok sps =>
        rw [hps] at h
        cases h
        rcases ih sps hps with ⟨hlen, hpt⟩
        refine ⟨by simp [hlen], fun i sp' p' h1 h2 => ?_⟩
        cases i with
        | zero =>
          cases h1
          cases h2
          exact compilePart_ok _ _ hsp
        | succ n => exact hpt n sp' p' h1 h2

/-- Claim C2: pattern compilation splits the query on `.` into an ordered
list of parts; a part containing `*` is compiled to a regex by replacing
each `*` with `(.*)` with no anchoring (`*` itself becoming `.*`) and
matches a component exactly when the engine's `is_match` predicate holds
on it; a part without `*` matches a component exactly when it is
string-equal to it. -/
theorem pattern_compilation (query : String) (s : Search)
    (h : Search.create_search query = Except.ok s) : C2Conclusion query s := by
  have h' : (match compileParts (RE.star RE.dot) (rustSplit query ".") with
      | Except.error e => Except.error e
      | Except.ok ps => Except.ok (⟨ps⟩ : Search)) = Except.ok s := h
  cases hps : compileParts (RE.star RE.dot) (rustSplit query ".") with
  | error e => rw [hps] at h'; cases h'
  | ok ps =>
    rw [hps] at h'
    cases h'
    exact compileParts_ok _ ps hps

/-- Witness for claim C2 at the concrete query `System.*`. -/
theorem pattern_compilation_witness :
    C2Conclusion "System.*" ⟨[⟨"System", none⟩, ⟨"*", some (RE.star RE.dot)⟩]⟩ :=
  pattern_compilation "System.*" _ rfl

/-- Claim C3: the import-prefix predicate holds exactly when every dotted
component of the symbol whose position is within the pattern's length
matches the part at the same position — components past the pattern's
length are ignored, and a pattern longer than the symbol imposes no
further requirement (the check stops at the shorter list) — and
`match_namespace` is the same predicate. -/
theorem import_prefix_match (se : Search) (symbol : String) :
    (Search.partial_namespace se symbol = true ↔
      ∀ i sp c, se.parts.get? i = some sp → (rustSplit symbol ".").get? i = some c →
        sp.matches c = true) ∧
    Search.match_namespace se symbol = Search.partial_namespace se symbol := by
  refine ⟨?_, rfl⟩
  unfold Search.partial_namespace
  rw [List.all_eq_true]
  constructor
  · intro h i sp c h1 h2
    have hz : (se.parts.zip (rustSplit symbol ".")).get? i = some (sp, c) :=
      (List.get?_zip_eq_some _ _ _ _).mpr ⟨h1, h2⟩
    exact h (sp, c) (List.get?_mem hz)
  · intro h pc hpc
    rcases List.mem_iff_get?.mp hpc with ⟨i, hi⟩
    rcases (List.get?_zip_eq_some _ _ _ _).mp hi with ⟨h1, h2⟩
    exact h i pc.1 pc.2 h1 h2

/-- Claim C7: the method matcher's predicate holds exactly when the
symbol splits on `.` into exactly a class part and a method part and some
stored FQN agrees with both (absent FQN fields read as `""`). -/
theorem method_symbol_match (m : MethodSymbols) (symbol : String) :
    MethodSymbols.symbol_in_namespace m symbol = true ↔
      ∃ c meth, rustSplit symbol "." = [c, meth] ∧
        ∃ pr ∈ m.methods, pr.1.cls.getD "" = c ∧ pr.1.method.getD "" = meth := by
  by_cases hl : (rustSplit symbol ".").length = 2
  · rcases List.length_eq_two.mp hl with ⟨a, b, hab⟩
    have huf : MethodSymbols.symbol_in_namespace m symbol =
        m.methods.any fun pr =>
          ((pr.1.method.getD "") == b) && ((pr.1.cls.getD "") == a) := by
      simp [MethodSymbols.symbol_in_namespace, hab]
    rw [huf, List.any_eq_true]
    constructor
    · rintro ⟨pr, hpr, hmatch⟩
      rw [Bool.and_eq_true, beq_iff_eq, beq_iff_eq] at hmatch
      exact ⟨a, b, hab, pr, hpr, hmatch.2, hmatch.1⟩
    · rintro ⟨c, meth, hcm, pr, hpr, h1, h2⟩
      rw [hab] at hcm
      injection hcm with hc htail
      injection htail with hm
      subst hc
      subst hm
      exact ⟨pr, hpr, by rw [Bool.and_eq_true, beq_iff_eq, beq_iff_eq]; exact ⟨h2, h1⟩⟩
  · have huf : MethodSymbols.symbol_in_namespace m symbol = false := by
      simp [MethodSymbols.symbol_in_namespace, hl]
    rw [huf]
    constructor
    · intro h
      exact Bool.noConfusion h
    · rintro ⟨c, meth, hcm, -⟩
      exact absurd (show (rustSplit symbol ".").length = 2 by rw [hcm]; rfl) hl

/-- One step over an ordinary (non-FQN) edge. -/
def nonFqnStep (g : StackGraph) (a b : Nat) : Prop :=
  ∃ e, e ∈ g.edges ∧ e.source = a ∧ e.sink = b ∧ e.precedence ≠ 10

/-- Reachability over ordinary edges only: no precedence-10 edge is ever
followed along such a path. -/
def NonFqnReach (g : StackGraph) : Nat → Nat → Prop :=
  Relation.ReflTransGen (nonFqnStep g)

/-- Edges surviving the precedence-10 skip of a traversal loop are graph
edges out of the current node with precedence other than 10. -/
theorem mem_kept {g : StackGraph} {node : Nat} {e : GEdge}
    (h : e ∈ (g.outgoing_edges node).filter fun e => !(e.precedence == 10)) :
    e ∈ g.edges ∧ e.source = node ∧ e.precedence ≠ 10 := by
  rcases List.mem_filter.mp h with ⟨h1, h2⟩
  have h1' : e ∈ g.edges ∧ (e.source == node) = true := by
    simpa [StackGraph.outgoing_edges, List.mem_filter] using h1
  exact ⟨h1'.1, by simpa using h1'.2, by simpa using h2⟩

/-- What claim C5 asserts of an incident emitted by the search traversal:
it stems from a non-FQN edge whose source was reached over non-FQN edges. -/
def TraverseEmits (g : StackGraph) (m : String → Bool) (uri : String) (start : Nat)
    (r : ResultNode) : Prop :=
  ∃ e, e ∈ g.edges ∧ e.precedence ≠ 10 ∧ NonFqnReach g start e.source ∧
    visitEdge g m uri e = some r

/-- What claim C5 asserts of a namespace-matcher map entry: its node is
the sink of a non-FQN edge whose source was reached over non-FQN edges. -/
def NsRecords (g : StackGraph) (start : Nat) (p : String × Nat) : Prop :=
  ∃ e, e ∈ g.edges ∧ e.precedence ≠ 10 ∧ NonFqnReach g start e.source ∧ e.sink = p.2

/-- What claim C5 asserts of a method-matcher map entry: the recorded node
was reached over non-FQN edges and the matched method sink hangs off it
by a non-FQN edge. -/
def MethodRecords (g : StackGraph) (start : Nat) (pr : Fqdn × Nat) : Prop :=
  NonFqnReach g start pr.2 ∧
  ∃ e, e ∈ g.edges ∧ e.precedence ≠ 10 ∧ e.source = pr.2 ∧ get_fqdn g e.sink = some pr.1

/-- A class-map contribution records the edge's sink. -/
theorem nsClassContrib_sink {g : StackGraph} {se : Search} {e : GEdge} {p : String × Nat}
    (h : nsClassContrib g se e = some p) : p.2 = e.sink := by
  unfold nsClassContrib at h
  cases h1 : (g.nodes.get? e.sink).bind GNode.symbol with
  | none => simp only [h1] at h; cases h
  | some sym =>
    simp only [h1] at h
    by_cases h2 : se.match_symbol sym = true
    · rw [if_pos h2] at h
      cases h3 : (g.nodes.get? e.sink).bind GNode.info with
      | none => simp only [h3] at h; cases h
      | some si =>
        simp only [h3] at h
        cases h4 : si.syntax_type with
        | none => simp only [h4] at h; cases h
        | some st =>
          simp only [h4] at h
          by_cases h5 : SyntaxType.get st = SyntaxType.ClassDef
          · rw [if_pos h5] at h
            cases h
            rfl
          · rw [if_neg h5] at h; cases h
    · rw [if_neg h2] at h; cases h

/-- A method-map contribution records the edge's sink. -/
theorem nsMethodContrib_sink {g : StackGraph} {se : Search} {e : GEdge} {p : String × Nat}
    (h : nsMethodContrib g se e = some p) : p.2 = e.sink := by
  unfold nsMethodContrib at h
  cases h1 : (g.nodes.get? e.sink).bind GNode.symbol with
  | none => simp only [h1] at h; cases h
  | some sym =>
    simp only [h1] at h
    by_cases h2 : se.match_symbol sym = true
    · rw [if_pos h2] at h
      cases h3 : (g.nodes.get? e.sink).bind GNode.info with
      | none => simp only [h3] at h; cases h
      | some si =>
        simp only [h3] at h
        cases h4 : si.syntax_type with
        | none => simp only [h4] at h; cases h
        | some st =>
          simp only [h4] at h
          by_cases h5 : SyntaxType.get st = SyntaxType.MethodName
          · rw [if_pos h5] at h
            cases h
            rfl
          · rw [if_neg h5] at h; cases h
    · rw [if_neg h2] at h; cases h

/-- A method-matcher contribution records the current node together with
the FQN of the edge's sink. -/
theorem methodContrib_inv {g : StackGraph} {se : Search} {node : Nat} {e : GEdge}
    {pr : Fqdn × Nat} (h : methodContrib g se node e = some pr) :
    pr.2 = node ∧ get_fqdn g e.sink = some pr.1 := by
  unfold methodContrib at h
  cases h1 : (g.nodes.get? e.sink).bind GNode.symbol with
  | none => simp only [h1] at h; cases h
  | some sym =>
    simp only [h1] at h
    by_cases h2 : se.match_symbol sym = true
    · rw [if_pos h2] at h
      cases h3 : (g.nodes.get? e.sink).bind GNode.info with
      | none => simp only [h3] at h; cases h
      | some si =>
        simp only [h3] at h
        cases h4 : si.syntax_type with
        | none => simp only [h4] at h; cases h
        | some st =>
          simp only [h4] at h
          by_cases h5 : SyntaxType.get st = SyntaxType.MethodName
          · rw [if_pos h5] at h
            cases h6 : get_fqdn g e.sink with
            | none => simp only [h6] at h; cases h
            | some f =>
              simp only [h6] at h
              cases h
              exact ⟨rfl, rfl⟩
          · rw [if_neg h5] at h; cases h
    · rw [if_neg h2] at h; cases h

/-- Soundness of the search traversal for claim C5. -/
theorem traverse_node_search_sound (g : StackGraph) (m : String → Bool) (uri : String) :
    ∀ fuel start r, r ∈ traverse_node_searchF g m uri fuel start →
      TraverseEmits g m uri start r := by
  intro fuel
  induction fuel with
  | zero => intro start r hr; simp [traverse_node_searchF] at hr
  | succ fuel ih =>
    intro start r hr
    simp only [traverse_node_searchF] at hr
    rcases List.mem_append.mp hr with h | h
    · rcases List.mem_filterMap.mp h with ⟨e, he, hve⟩
      rcases mem_kept he with ⟨h1, h2, h3⟩
      exact ⟨e, h1, h3, by rw [h2]; exact Relation.ReflTransGen.refl, hve⟩
    · rcases List.mem_flatMap.mp h with ⟨e, he, hr'⟩
      rcases mem_kept he with ⟨h1, h2, h3⟩
      rcases ih e.sink r hr' with ⟨e2, g1, g2, g3, g4⟩
      exact ⟨e2, g1, g2, Relation.ReflTransGen.head ⟨e, h1, h2, rfl, h3⟩ g3, g4⟩

/-- Soundness of the namespace-matcher traversal (classes map). -/
theorem ns_traverse_classes_sound (g : StackGraph) (se : Search) :
    ∀ fuel start p, p ∈ (NamespaceSymbols.traverse_nodeF g se fuel start).1 →
      NsRecords g start p := by
  intro fuel
  induction fuel with
  | zero => intro start p hp; simp [NamespaceSymbols.traverse_nodeF] at hp
  | succ fuel ih =>
    intro start p hp
    simp only [NamespaceSymbols.traverse_nodeF] at hp
    rcases List.mem_append.mp hp with h | h
    · rcases List.mem_filterMap.mp h with ⟨e, he, hc⟩
      rcases mem_kept he with ⟨h1, h2, h3⟩
      exact ⟨e, h1, h3, by rw [h2]; exact Relation.ReflTransGen.refl,
        (nsClassContrib_sink hc).symm⟩
    · rcases List.mem_flatten.mp h with ⟨l, hl, hpl⟩
      rcases List.mem_map.mp hl with ⟨pr', hpr', rfl⟩
      rcases List.mem_map.mp hpr' with ⟨e, he, rfl⟩
      rcases mem_kept he with ⟨h1, h2, h3⟩
      rcases ih e.sink p hpl with ⟨e2, g1, g2, g3, g4⟩
      exact ⟨e2, g1, g2, Relation.ReflTransGen.head ⟨e, h1, h2, rfl, h3⟩ g3, g4⟩

/-- Soundness of the namespace-matcher traversal (methods map). -/
theorem ns_traverse_methods_sound (g : StackGraph) (se : Search) :
    ∀ fuel start p, p ∈ (NamespaceSymbols.traverse_nodeF g se fuel start).2 →
      NsRecords g start p := by
  intro fuel
  induction fuel with
  | zero => intro start p hp; simp [NamespaceSymbols.traverse_nodeF] at hp
  | succ fuel ih =>
    intro start p hp
    simp only [NamespaceSymbols.traverse_nodeF] at hp
    rcases List.mem_append.mp hp with h | h
    · rcases List.mem_filterMap.mp h with ⟨e, he, hc⟩
      rcases mem_kept he with ⟨h1, h2, h3⟩
      exact ⟨e, h1, h3, by rw [h2]; exact Relation.ReflTransGen.refl,
        (nsMethodContrib_sink hc).symm⟩
    · rcases List.mem_flatten.mp h with ⟨l, hl, hpl⟩
      rcases List.mem_map.mp hl with ⟨pr', hpr', rfl⟩
      rcases List.mem_map.mp hpr' with ⟨e, he, rfl⟩
      rcases mem_kept he with ⟨h1, h2, h3⟩
      rcases ih e.sink p hpl with ⟨e2, g1, g2, g3, g4⟩
      exact ⟨e2, g1, g2, Relation.ReflTransGen.head ⟨e, h1, h2, rfl, h3⟩ g3, g4⟩

/-- Soundness of the method-matcher traversal. -/
theorem method_traverse_sound (g : StackGraph) (se : Search) :
    ∀ fuel start pr, pr ∈ MethodSymbols.traverse_nodeF g se fuel start →
      MethodRecords g start pr := by
  intro fuel
  induction fuel with
  | zero => intro start pr h; simp [MethodSymbols.traverse_nodeF] at h
  | succ fuel ih =>
    intro start pr h
    simp only [MethodSymbols.traverse_nodeF] at h
    rcases List.mem_append.mp h with h | h
    · rcases List.mem_filterMap.mp h with ⟨e, he, hc⟩
      rcases mem_kept he with ⟨h1, h2, h3⟩
      rcases methodContrib_inv hc with ⟨hp2, hfq⟩
      exact ⟨by rw [hp2]; exact Relation.ReflTransGen.refl, e, h1, h3,
        by rw [hp2]; exact h2, hfq⟩
    · rcases List.mem_flatMap.mp h with ⟨e, he, h'⟩
      rcases mem_kept he with ⟨h1, h2, h3⟩
      rcases ih e.sink pr h' with ⟨r1, r2⟩
      exact ⟨Relation.ReflTransGen.head ⟨e, h1, h2, rfl, h3⟩ r1, r2⟩

/-- Claim C5: in each of the three forward traversals — incident
collection, namespace-matcher construction and method-matcher
construction — precedence-10 edges are never followed: everything emitted
or recorded stems from non-FQN edges whose sources are reached over
non-FQN edges only. -/
theorem forward_traversal_skips_fqn_edges :
    (∀ (g : StackGraph) (m : String → Bool) (uri : String) (fuel start : Nat)
       (r : ResultNode),
       r ∈ traverse_node_searchF g m uri fuel start → TraverseEmits g m uri start r) ∧
    (∀ (g : StackGraph) (se : Search) (fuel start : Nat) (p : String × Nat),
       p ∈ (NamespaceSymbols.traverse_nodeF g se fuel start).1 → NsRecords g start p) ∧
    (∀ (g : StackGraph) (se : Search) (fuel start : Nat) (p : String × Nat),
       p ∈ (NamespaceSymbols.traverse_nodeF g se fuel start).2 → NsRecords g start p) ∧
    (∀ (g : StackGraph) (se : Search) (fuel start : Nat) (pr : Fqdn × Nat),
       pr ∈ MethodSymbols.traverse_nodeF g se fuel start → MethodRecords g start pr) :=
  ⟨fun g m uri fuel start r => traverse_node_search_sound g m uri fuel start r,
   fun g se fuel start p => ns_traverse_classes_sound g se fuel start p,
   fun g se fuel start p => ns_traverse_methods_sound g se fuel start p,
   fun g se fuel start pr => method_traverse_sound g se fuel start pr⟩

/-- Witness for claim C5: the incident of `gSrc` stems from a non-FQN
edge reached over non-FQN edges. -/
theorem forward_traversal_skips_fqn_edges_witness :
    TraverseEmits gSrc (fun _ => true) "file:///proj/a.cs" 0 rSrc :=
  forward_traversal_skips_fqn_edges.1 gSrc (fun _ => true) "file:///proj/a.cs" 4 0 rSrc
    (by decide)

/-- Every incident of one traversal carries the traversal's file URI. -/
theorem visitEdge_uri {g : StackGraph} {m : String → Bool} {uri : String} {e : GEdge}
    {r : ResultNode} (h : visitEdge g m uri e = some r) : r.file_uri = uri := by
  unfold visitEdge at h
  cases h1 : (g.nodes.get? e.sink).bind GNode.symbol with
  | none => simp only [h1] at h; cases h
  | some sym =>
    simp only [h1] at h
    by_cases h2 : m sym = true
    · rw [if_pos h2] at h
      cases h3 : (g.nodes.get? e.sink).bind GNode.info with
      | none => simp only [h3] at h; cases h
      | some si =>
        simp only [h3] at h
        cases h
        rfl
    · rw [if_neg h2] at h; cases h

/-- Every incident collected below one compilation unit carries the file
URI the traversal was started with. -/
theorem traverse_file_uri (g : StackGraph) (m : String → Bool) (uri : String) :
    ∀ fuel start r, r ∈ traverse_node_searchF g m uri fuel start → r.file_uri = uri := by
  intro fuel
  induction fuel with
  | zero => intro start r h; simp [traverse_node_searchF] at h
  | succ fuel ih =>
    intro start r h
    simp only [traverse_node_searchF] at h
    rcases List.mem_append.mp h with h | h
    · rcases List.mem_filterMap.mp h with ⟨e, _, hve⟩
      exact visitEdge_uri hve
    · rcases List.mem_flatMap.mp h with ⟨e, _, h'⟩
      exact ih e.sink r h'

/-- Conclusion of claim C1 for one emitted incident: its URI is the URI
of a referenced file that has a compilation unit and passes the
source-marker test, so no dependency file (one without a marker node
wired to its compilation unit) can contribute an incident. -/
def C1Conclusion (g : StackGraph) (marker : String) (search : Search)
    (r : ResultNode) : Prop :=
  ∃ f cu name,
    f ∈ (get_starting_nodes g search).referenced_files ∧
    lookupLast (get_starting_nodes g search).file_to_compunit_handle f = some cu ∧
    hasSourceMarkerEdge g marker f cu = true ∧
    g.fileNames.get? f = some name ∧
    mkFileUri name = some r.file_uri

/-- Soundness of phase 3 in source-only mode: every emitted incident
belongs to a referenced file that passed the source-marker test. -/
theorem phase3_source_sound (g : StackGraph) (marker : String) (m : String → Bool)
    (ftc : List (Nat × Nat)) :
    ∀ (files : List Nat) (r : ResultNode),
      r ∈ phase3 g (SourceType.Source marker) m ftc files →
      ∃ f cu name, f ∈ files ∧ lookupLast ftc f = some cu ∧
        hasSourceMarkerEdge g marker f cu = true ∧
        g.fileNames.get? f = some name ∧ mkFileUri name = some r.file_uri := by
  intro files
  induction files with
  | nil => intro r h; simp [phase3] at h
  | cons f rest ih =>
    intro r h
    cases hcu : lookupLast ftc f with
    | none => simp [phase3, hcu] at h
    | some cu =>
      simp only [phase3, hcu] at h
      cases hmk : hasSourceMarkerEdge g marker f cu with
      | false =>
        rw [if_pos (show (!hasSourceMarkerEdge g marker f cu) = true by rw [hmk]; rfl)] at h
        rcases ih r h with ⟨f', cu', name', q1, q2, q3, q4, q5⟩
        exact ⟨f', cu', name', List.mem_cons_of_mem _ q1, q2, q3, q4, q5⟩
      | true =>
        rw [if_neg (by simp [hmk])] at h
        rw [List.get?_eq_getElem?] at h
        cases hname : g.fileNames[f]? with
        | none => simp [hname] at h
        | some name =>
          simp only [hname] at h
          cases huri : mkFileUri name with
          | none => simp [huri] at h
          | some uri =>
            simp only [huri] at h
            rcases List.mem_append.mp h with h | h
            · have hu := traverse_file_uri g m uri g.nodes.length cu r h
              exact ⟨f, cu, name, List.mem_cons_self f rest, hcu, hmk,
                by rw [List.get?_eq_getElem?]; exact hname, by rw [hu]; exact huri⟩
            · rcases ih r h with ⟨f', cu', name', q1, q2, q3, q4, q5⟩
              exact ⟨f', cu', name', List.mem_cons_of_mem _ q1, q2, q3, q4, q5⟩

/-- Claim C1: in source-only mode every incident the query emits belongs
to a referenced file that carries the source marker — a node with the
reserved marker symbol and an outgoing edge into the file's compilation
unit — so files failing the test (dependency files in particular)
contribute no incident. -/
theorem source_only_incidents (g : StackGraph) (marker : String)
    (buildM : StackGraph → List Nat → Search → String → Bool) (query : String)
    (search : Search) (res : List ResultNode) (r : ResultNode)
    (hs : Search.create_search query = Except.ok search)
    (hq : queryModel g (SourceType.Source marker) buildM query = Except.ok res)
    (hr : r ∈ res) : C1Conclusion g marker search r := by
  unfold queryModel at hq
  rw [hs] at hq
  cases hq
  rcases phase3_source_sound g marker
      (buildM g (get_starting_nodes g search).definition_root_nodes search)
      (get_starting_nodes g search).file_to_compunit_handle
      (get_starting_nodes g search).referenced_files r hr with
    ⟨f, cu, name, q1, q2, q3, q4, q5⟩
  exact ⟨f, cu, name, q1, q2, q3, q4, q5⟩

/-- Witness for claim C1: the one incident of `gSrc` under source-only
analysis comes from the marker-carrying file. -/
theorem source_only_incidents_witness :
    C1Conclusion gSrc SOURCE_STRING searchStar rSrc :=
  source_only_incidents gSrc SOURCE_STRING constTrueMatcher "*" searchStar [rSrc] rSrc
    rfl rfl (List.mem_singleton.mpr rfl)

end CSharpAnalyzer
